import Mathlib

/-!
Shallow embedding of the firework-show timing/synchronization engine:
the timeline data model, the time↔pixel viewport mapping, the show-store
mutations (fireworks, clips, import), the transport handlers
(play/pause/stop/seek and the per-frame playback tick), and the
AudioPlayer scheduling logic.

Numbers: timeline times are exact rationals (the source uses JS numbers;
the claims under study are algebraic, so we work in ℚ, with ℤ where the
source only ever adds and subtracts). Wall-clock `new Date()` values are
passed in explicitly as a `now : ℤ` parameter; `AudioContext.currentTime`
is a `ctxNow : ℚ` parameter.
-/

/-- Launch position of a placed firework (from `TimelineFirework.position`). -/
structure FwPosition where
  x : ℤ
  angle : ℤ
deriving DecidableEq, Repr

/-- `FireworkDefinition` from src/src/types/index.ts (timing fields; the
purely descriptive fields — category, manufacturer, colors, burst size,
description — play no role in any operation modelled here). -/
structure FireworkDefinition where
  id : String
  name : String
  fuseTime : ℤ
  liftTime : ℤ
  effectDuration : ℤ
  totalDuration : ℤ
  preFiringOffset : ℤ
deriving DecidableEq, Repr

/-- `TimelineFirework` from src/src/types/index.ts. -/
structure TimelineFirework where
  id : String
  fireworkId : String
  visualTime : ℤ
  fireTime : ℤ
  position : FwPosition
  trackId : String
  cueNumber : Option String
  notes : Option String
deriving DecidableEq, Repr

/-- `AudioClip` from src/src/types/index.ts (the decoded `audioBuffer` is
held outside the show, in the `audioBuffers` map; here the set of clip ids
that have a decoded buffer is passed around as a list of ids). -/
structure AudioClip where
  id : String
  name : String
  fileName : String
  startTime : ℚ
  duration : ℚ
  trimStart : ℚ
  trimEnd : ℚ
  volume : ℚ
  trackId : String
deriving DecidableEq, Repr

/-- Track kind (`'audio' | 'firework'`). -/
inductive TrackType where
  | audio : TrackType
  | firework : TrackType
deriving DecidableEq, Repr

/-- `Track` from src/src/types/index.ts. -/
structure Track where
  id : String
  name : String
  type : TrackType
  color : String
  muted : Bool
  solo : Bool
  height : ℤ
deriving DecidableEq, Repr

/-- `FireworkShow` from src/src/types/index.ts. Timestamps are abstract
instants (ℤ), supplied by the caller where the source calls `new Date()`. -/
structure FireworkShow where
  id : String
  name : String
  createdAt : ℤ
  updatedAt : ℤ
  duration : ℚ
  tracks : List Track
  audioClips : List AudioClip
  fireworks : List TimelineFirework
  customFireworks : List FireworkDefinition
deriving DecidableEq, Repr

/-- `PlaybackState` from src/src/types/index.ts. -/
structure PlaybackState where
  isPlaying : Bool
  currentTime : ℚ
  loopStart : Option ℚ
  loopEnd : Option ℚ
  isLooping : Bool
deriving DecidableEq, Repr

/-! ## ViewportMapper — src/src/utils/timeUtils.ts -/

/-- `msToPixels(ms, pixelsPerSecond) = (ms / 1000) * pixelsPerSecond`. -/
def msToPixels (ms pixelsPerSecond : ℚ) : ℚ :=
  ms / 1000 * pixelsPerSecond

/-- `pixelsToMs(pixels, pixelsPerSecond) = (pixels / pixelsPerSecond) * 1000`. -/
def pixelsToMs (pixels pixelsPerSecond : ℚ) : ℚ :=
  pixels / pixelsPerSecond * 1000

/-- `clamp(value, min, max) = Math.max(min, Math.min(max, value))`. -/
def clamp (value lo hi : ℚ) : ℚ :=
  max lo (min hi value)

/-- The `(minorInterval, majorInterval)` selection of `generateRulerTicks`
(the if/else-if chain on `pixelsPerSecond`; the initial values 1000/5000 are
the defaults kept when no branch fires). -/
def chooseIntervals (pixelsPerSecond : ℚ) : ℤ × ℤ :=
  if pixelsPerSecond < 20 then (10000, 60000)
  else if pixelsPerSecond < 50 then (5000, 30000)
  else if pixelsPerSecond < 100 then (1000, 10000)
  else if pixelsPerSecond > 200 then (500, 5000)
  else (1000, 5000)

/-- One ruler tick `{ time, isMajor }`. -/
structure RulerTick where
  time : ℤ
  isMajor : Bool
deriving DecidableEq, Repr

/-- `Math.floor(startMs / minorInterval) * minorInterval`: the
minor-interval-aligned floor of the range start (JS `Math.floor` of a real
quotient is Euclidean division for a positive divisor). -/
def alignedStart (startMs minorInterval : ℤ) : ℤ :=
  startMs / minorInterval * minorInterval

/-- The `for (let time = start; time <= endMs; time += minorInterval)` loop
of `generateRulerTicks`, unrolled as a range map: tick `i` sits at
`start + i * minor`, and `isMajor` is `time % majorInterval === 0` (JS `%`
and Euclidean `%` agree on being zero exactly at multiples). -/
def generateRulerTicks (startMs endMs : ℤ) (pixelsPerSecond : ℚ) : List RulerTick :=
  let iv := chooseIntervals pixelsPerSecond
  let minor := iv.1
  let major := iv.2
  let start := alignedStart startMs minor
  if start ≤ endMs then
    (List.range (((endMs - start) / minor).toNat + 1)).map
      (fun (i : ℕ) => { time := start + (i : ℤ) * minor
                        isMajor := (start + (i : ℤ) * minor) % major == 0 })
  else []

/-! ## ShowStore — src/unnamed/part_001 (`useFireworkShow`) -/

/-- A partial update (`Partial<TimelineFirework>`): each present field
overrides the instance's field on merge (`{ ...firework, ...updates }`). -/
structure FireworkUpdate where
  id : Option String := none
  fireworkId : Option String := none
  visualTime : Option ℤ := none
  fireTime : Option ℤ := none
  position : Option FwPosition := none
  trackId : Option String := none
  cueNumber : Option String := none
  notes : Option String := none
deriving DecidableEq, Repr

/-- The object-spread merge `{ ...f, ...u }`. -/
def applyUpdate (f : TimelineFirework) (u : FireworkUpdate) : TimelineFirework :=
  { id := u.id.getD f.id
    fireworkId := u.fireworkId.getD f.fireworkId
    visualTime := u.visualTime.getD f.visualTime
    fireTime := u.fireTime.getD f.fireTime
    position := u.position.getD f.position
    trackId := u.trackId.getD f.trackId
    cueNumber := match u.cueNumber with | some s => some s | none => f.cueNumber
    notes := match u.notes with | some s => some s | none => f.notes }

/-- `[...fireworkLibrary, ...customFireworks].find((f) => f.id === defId)`.
The built-in catalog (`defaultFireworksLibrary`, a data module outside the
engine) is passed in as `lib`. -/
def findDefinition (lib customFireworks : List FireworkDefinition) (defId : String) :
    Option FireworkDefinition :=
  (lib ++ customFireworks).find? (fun d => d.id = defId)

/-- `addFirework(fireworkDefId, trackId, visualTime)`: no-op returning
`undefined` when the definition does not resolve; otherwise insert a fresh
instance with `fireTime = visualTime − def.preFiringOffset`, default
placement `{ x: 0, angle: 90 }`, and return its id. `newId` stands for the
random id `generateId()` produced, `now` for `new Date()`. -/
def addFirework (lib : List FireworkDefinition) (sh : FireworkShow) (now : ℤ)
    (newId fireworkDefId trackId : String) (visualTime : ℤ) :
    FireworkShow × Option String :=
  match findDefinition lib sh.customFireworks fireworkDefId with
  | none => (sh, none)
  | some d =>
    let f : TimelineFirework :=
      { id := newId, fireworkId := fireworkDefId, visualTime := visualTime
        fireTime := visualTime - d.preFiringOffset
        position := { x := 0, angle := 90 }, trackId := trackId
        cueNumber := none, notes := none }
    ({ sh with fireworks := sh.fireworks ++ [f], updatedAt := now }, some newId)

/-- `updateFirework(fireworkId, updates)`: no-op when the id is absent.
When `visualTime` is among the updates and the (pre-update) instance's
definition resolves, the updates are extended with a recomputed
`fireTime`; then the merge is applied to every instance with the id. -/
def updateFirework (lib : List FireworkDefinition) (sh : FireworkShow) (now : ℤ)
    (fireworkId : String) (updates : FireworkUpdate) : FireworkShow :=
  match sh.fireworks.find? (fun f => f.id = fireworkId) with
  | none => sh
  | some firework =>
    let newUpdates :=
      match updates.visualTime with
      | some vt =>
        match findDefinition lib sh.customFireworks firework.fireworkId with
        | some d => { updates with fireTime := some (vt - d.preFiringOffset) }
        | none => updates
      | none => updates
    { sh with
      fireworks := sh.fireworks.map
        (fun f => if f.id = fireworkId then applyUpdate f newUpdates else f)
      updatedAt := now }

/-- `duplicateFirework(fireworkId, offsetMs = 1000)`: full copy under a
fresh id with both `visualTime` and `fireTime` shifted by `offsetMs`;
no-op when the id is absent. -/
def duplicateFirework (sh : FireworkShow) (now : ℤ) (newId fireworkId : String)
    (offsetMs : ℤ) : FireworkShow :=
  match sh.fireworks.find? (fun f => f.id = fireworkId) with
  | none => sh
  | some original =>
    { sh with
      fireworks := sh.fireworks ++
        [{ original with
            id := newId,
            visualTime := original.visualTime + offsetMs,
            fireTime := original.fireTime + offsetMs }]
      updatedAt := now }

/-- `importShow(data)` — `JSON.parse` is a platform facility, modelled by
its outcome `parsed : Option FireworkShow` (`none` = the parse threw).
Result: new show state, paired with `true` exactly when the failure was
reported to the diagnostic channel (`console.error`). On success the show
is the parsed payload with `createdAt` rebuilt from the payload value and
`updatedAt` set to `new Date()` (= `now`). -/
def importShow (parsed : Option FireworkShow) (now : ℤ) (prior : FireworkShow) :
    FireworkShow × Bool :=
  match parsed with
  | none => (prior, true)
  | some p => ({ p with createdAt := p.createdAt, updatedAt := now }, false)

/-- §8 / §3 derived-field invariant for one instance: whenever the
referenced definition resolves, `fireTime = visualTime − preFiringOffset`. -/
def fireInvariant (lib customFireworks : List FireworkDefinition)
    (f : TimelineFirework) : Prop :=
  match findDefinition lib customFireworks f.fireworkId with
  | some d => f.fireTime = f.visualTime - d.preFiringOffset
  | none => True

/-! ## Transport handlers and AudioPlayer — src/unnamed/part_001 lines
333-400 and src/unnamed/part_002 -/

/-- The clip record handed to `AudioPlayer.play` by `handlePlay` and
`handleSeek` (`{ id, buffer, startTimeMs, volume, trimStartMs,
trimEndMs }`). `buffer` is `audioBuffers.get(clip.id)`: the decoded
buffer, carried here as its duration in seconds (`none` = no buffer). -/
structure SchedClip where
  id : String
  buffer : Option ℚ
  startTimeMs : ℚ
  volume : ℚ
  trimStartMs : ℚ
  trimEndMs : ℚ
deriving DecidableEq, Repr

/-- Build the scheduler record for one clip, looking its buffer up in the
`audioBuffers` map (modelled as an association list id ↦ duration sec). -/
def schedClipOf (bufs : List (String × ℚ)) (c : AudioClip) : SchedClip :=
  { id := c.id, buffer := (bufs.find? (fun b => b.1 = c.id)).map (fun b => b.2)
    startTimeMs := c.startTime, volume := c.volume
    trimStartMs := c.trimStart, trimEndMs := c.trimEnd }

/-- The clip-eligibility pipeline shared verbatim by `handlePlay` and
`handleSeek`: keep clips whose track exists and is not muted, build the
scheduler records, then drop records whose `buffer` is missing. -/
def eligibleClips (sh : FireworkShow) (bufs : List (String × ℚ)) : List SchedClip :=
  ((sh.audioClips.filter (fun clip =>
      match sh.tracks.find? (fun t => t.id = clip.trackId) with
      | some track => !track.muted
      | none => false)).map (schedClipOf bufs)).filter (fun c => c.buffer.isSome)

/-- A source-node start command `source.start(when, offset, duration)`,
all in seconds of the audio-context clock. -/
structure StartCmd where
  whenAt : ℚ
  offset : ℚ
  length : ℚ
deriving DecidableEq, Repr

/-- The per-clip scheduling decision inside `AudioPlayer.play`
(src/unnamed/part_002 lines 132-150): `none` means `source.start` is never
invoked for the clip. `bufferDurationSec` is `clip.buffer.duration`,
`ctxNow` is `this.ctx.currentTime`. -/
def scheduleOne (ctxNow currentTimeMs startTimeMs trimStartMs trimEndMs
    bufferDurationSec : ℚ) : Option StartCmd :=
  let clipStartTime := startTimeMs / 1000
  let trimStart := trimStartMs / 1000
  let duration := bufferDurationSec - trimStart - trimEndMs / 1000
  let playbackOffset := currentTimeMs / 1000 - clipStartTime
  if 0 ≤ playbackOffset ∧ playbackOffset < duration then
    some { whenAt := 0, offset := trimStart + playbackOffset
           length := duration - playbackOffset }
  else if playbackOffset < 0 then
    some { whenAt := ctxNow - playbackOffset, offset := trimStart, length := duration }
  else none

/-- The mutable state of the `AudioPlayer` class. `pauseTime` is
initialized to 0 by the class and is never assigned by any method. -/
structure AudioPlayerState where
  sources : List String
  startTime : ℚ
  pauseTime : ℚ
  isPlaying : Bool
deriving DecidableEq, Repr

/-- The field initializers of `AudioPlayer`. -/
def initAudioPlayer : AudioPlayerState :=
  { sources := [], startTime := 0, pauseTime := 0, isPlaying := false }

/-- `AudioPlayer.stop()`: stop every tracked source (a source that never
started is swallowed by the try/catch), clear the source and gain maps,
clear `isPlaying`. -/
def AudioPlayerState.stop (p : AudioPlayerState) : AudioPlayerState :=
  { p with sources := [], isPlaying := false }

/-- `AudioPlayer.getCurrentTime()`. -/
def AudioPlayerState.getCurrentTime (p : AudioPlayerState) (ctxNow : ℚ) : ℚ :=
  if p.isPlaying then (ctxNow - p.startTime) * 1000 else p.pauseTime

/-- `AudioPlayer.play(clips, currentTimeMs)`: stop, re-anchor
`startTime = ctx.currentTime − currentTimeMs / 1000`, set `isPlaying`,
and take the `scheduleOne` decision per clip (`c.buffer.getD 0` reads
`clip.buffer.duration`; callers only pass buffer-present clips, so the
default is unreachable there); every clip is tracked in `sources` whether
or not its source was started. -/
def AudioPlayerState.play (p : AudioPlayerState) (clips : List SchedClip)
    (currentTimeMs ctxNow : ℚ) : AudioPlayerState × List (String × Option StartCmd) :=
  let p1 := p.stop
  ({ p1 with
      isPlaying := true,
      startTime := ctxNow - currentTimeMs / 1000,
      sources := clips.map (fun c => c.id) },
   clips.map (fun c =>
     (c.id, scheduleOne ctxNow currentTimeMs c.startTimeMs c.trimStartMs c.trimEndMs
        (c.buffer.getD 0))))

/-- Commands the transport handlers issue against the shared player. -/
inductive PlayerCmd where
  | stop : PlayerCmd
  | playAt : List SchedClip → ℚ → PlayerCmd
deriving DecidableEq, Repr

/-- `handlePlay`: hand the eligible clips to
`audioPlayer.play(clips, playback.currentTime)` and set `isPlaying`. -/
def handlePlay (sh : FireworkShow) (bufs : List (String × ℚ)) (pb : PlaybackState) :
    PlaybackState × List PlayerCmd :=
  ({ pb with isPlaying := true },
   [PlayerCmd.playAt (eligibleClips sh bufs) pb.currentTime])

/-- `handlePause`: `audioPlayer.stop()` first, then freeze the transport
with `currentTime: audioPlayer.getCurrentTime()` — evaluated after the
stop. -/
def handlePause (player : AudioPlayerState) (pb : PlaybackState) (ctxNow : ℚ) :
    AudioPlayerState × PlaybackState :=
  let player1 := player.stop
  (player1,
   { pb with isPlaying := false, currentTime := player1.getCurrentTime ctxNow })

/-- `handleStop`: stop the player, clear `isPlaying`, reset `currentTime`
to 0. -/
def handleStop (pb : PlaybackState) : PlaybackState × List PlayerCmd :=
  ({ pb with isPlaying := false, currentTime := 0 }, [PlayerCmd.stop])

/-- `handleSeek(time)`: set `currentTime := time` (no clamping anywhere on
this path); when the transport was playing, additionally stop the player
and — after the fixed 50 ms `setTimeout`, elided as §5 notes — hand the
eligible clips back to `audioPlayer.play(clips, time)`. -/
def handleSeek (sh : FireworkShow) (bufs : List (String × ℚ)) (pb : PlaybackState)
    (time : ℚ) : PlaybackState × List PlayerCmd :=
  ({ pb with currentTime := time },
   if pb.isPlaying then
     [PlayerCmd.stop, PlayerCmd.playAt (eligibleClips sh bufs) time]
   else [])

/-- One iteration of the playback loop (`updateTime` in the `useEffect`,
src/unnamed/part_001 lines 107-122), entered only while playing: read the
playhead `hw = audioPlayer.getCurrentTime()`; when it is at or past
`show.duration`, either loop — an internal `handleSeek(loopStart)` whose
`currentTime := loopStart` update is then overwritten by the loop's own
`currentTime := hw` fall-through — or `handleStop` and return early;
below `duration`, just publish `currentTime := hw`. -/
def playbackTick (sh : FireworkShow) (bufs : List (String × ℚ)) (pb : PlaybackState)
    (hw : ℚ) : PlaybackState × List PlayerCmd :=
  if hw ≥ sh.duration then
    match pb.isLooping, pb.loopStart with
    | true, some ls =>
      let s := handleSeek sh bufs pb ls
      ({ s.1 with currentTime := hw }, s.2)
    | _, _ => handleStop pb
  else ({ pb with currentTime := hw }, [])

/-! ## Concrete fixtures for witnesses and counterexamples -/

/-- A minimal concrete show (default duration 300000 ms, nothing placed). -/
def sampleShow : FireworkShow :=
  { id := "show-1", name := "Untitled Show", createdAt := 0, updatedAt := 0
    duration := 300000, tracks := [], audioClips := [], fireworks := []
    customFireworks := [] }

/-- A stopped transport. -/
def stoppedPlayback : PlaybackState :=
  { isPlaying := false, currentTime := 0, loopStart := none, loopEnd := none
    isLooping := false }

/-- The §8 example definition: fuse 500, lift 2500, effect 3000, so
preFiringOffset 3000 and totalDuration 6000. -/
def defA : FireworkDefinition :=
  { id := "d1", name := "Big Shell", fuseTime := 500, liftTime := 2500
    effectDuration := 3000, totalDuration := 6000, preFiringOffset := 3000 }

/-- A second definition with a different pre-firing offset (500). -/
def defB : FireworkDefinition :=
  { id := "d2", name := "Small Shell", fuseTime := 100, liftTime := 400
    effectDuration := 2000, totalDuration := 2500, preFiringOffset := 500 }

/-- A placed instance of `defA` satisfying the derived-field invariant:
`fireTime = 5000 − 3000`. -/
def fwOnTimeline : TimelineFirework :=
  { id := "f1", fireworkId := "d1", visualTime := 5000, fireTime := 2000
    position := { x := 0, angle := 90 }, trackId := "firework-1"
    cueNumber := none, notes := none }

/-- `sampleShow` with `fwOnTimeline` placed. -/
def fwShow : FireworkShow := { sampleShow with fireworks := [fwOnTimeline] }

/-! ## Theorems -/

/-- C7: for every pixel value `p`, millisecond value `ms` and
`pixelsPerSecond > 0`, the viewport mapping round-trips exactly —
`msToPixels (pixelsToMs p pps) pps = p` and conversely — so in particular
within integer rounding tolerance; and `msToPixels ms pps = ms / 1000 *
pps` as specified. -/
theorem msToPixels_roundTrip (p ms pps : ℚ) (hpps : 0 < pps) :
    msToPixels (pixelsToMs p pps) pps = p ∧
    pixelsToMs (msToPixels ms pps) pps = ms ∧
    msToPixels ms pps = ms / 1000 * pps := by
  have hne : pps ≠ 0 := ne_of_gt hpps
  refine ⟨?_, ?_, rfl⟩
  · unfold msToPixels pixelsToMs
    field_simp
    ring
  · unfold msToPixels pixelsToMs
    field_simp
    ring

/-- Witness for C7 at `p = 37`, `ms = 250`, `pps = 50`. -/
theorem msToPixels_roundTrip_witness :
    msToPixels (pixelsToMs 37 50) 50 = 37 ∧ pixelsToMs (msToPixels 250 50) 50 = 250 := by
  have h := msToPixels_roundTrip 37 250 50 (by norm_num)
  exact ⟨h.1, h.2.1⟩

/-- C4 counterexample: `seek(-500)` on the default 300000 ms show stores
`currentTime = -500`, while `clamp(-500, 0, duration) = 0`; the claimed
clamping does not happen. -/
theorem handleSeek_no_clamp_cex :
    (handleSeek sampleShow [] stoppedPlayback (-500)).1.currentTime = -500 ∧
    clamp (-500) 0 sampleShow.duration = 0 ∧
    ((-500 : ℚ) ≠ 0) := by
  refine ⟨rfl, ?_, by norm_num⟩
  show max 0 (min sampleShow.duration (-500)) = 0
  rw [show sampleShow.duration = 300000 from rfl]
  norm_num

/-- C4 amended: `seek(t)` stores its argument verbatim — for every `t`
(negative or beyond the show duration included) the resulting
`currentTime` is exactly `t`; no clamping is applied on the seek path. -/
theorem handleSeek_stores_raw (sh : FireworkShow) (bufs : List (String × ℚ))
    (pb : PlaybackState) (t : ℚ) :
    (handleSeek sh bufs pb t).1.currentTime = t := rfl

/-- C9: an import whose parse fails reports to the diagnostic channel and
leaves the prior show completely unmodified; an import whose parse
succeeds loads the payload with `updatedAt` reset to the import instant
and `createdAt` preserved from the payload. -/
theorem importShow_spec (prior : FireworkShow) (now : ℤ) :
    importShow none now prior = (prior, true) ∧
    ∀ p : FireworkShow,
      (importShow (some p) now prior).1 = { p with updatedAt := now } ∧
      (importShow (some p) now prior).1.createdAt = p.createdAt ∧
      (importShow (some p) now prior).1.updatedAt = now ∧
      (importShow (some p) now prior).2 = false :=
  ⟨rfl, fun _ => ⟨rfl, rfl, rfl, rfl⟩⟩

/-- C10: with an id that matches no placed instance, `updateFirework` and
`duplicateFirework` return the previous show object unchanged — no
instance added or modified and `updatedAt` not refreshed — whereas with a
matching id both refresh `updatedAt`. -/
theorem missing_id_noop (lib : List FireworkDefinition) (sh : FireworkShow)
    (now : ℤ) (newId fireworkId : String) (u : FireworkUpdate) (offsetMs : ℤ) :
    (sh.fireworks.find? (fun f => f.id = fireworkId) = none →
      updateFirework lib sh now fireworkId u = sh ∧
      duplicateFirework sh now newId fireworkId offsetMs = sh) ∧
    (∀ g, sh.fireworks.find? (fun f => f.id = fireworkId) = some g →
      (updateFirework lib sh now fireworkId u).updatedAt = now ∧
      (duplicateFirework sh now newId fireworkId offsetMs).updatedAt = now) := by
  constructor
  · intro h
    constructor
    · simp only [updateFirework, h]
    · simp only [duplicateFirework, h]
  · intro g h
    constructor
    · simp only [updateFirework, h]
    · simp only [duplicateFirework, h]

/-- Witness for C10: on `fwShow` the id "nope" matches nothing and both
operations are no-ops; the id "f1" matches and refreshes `updatedAt`. -/
theorem missing_id_noop_witness :
    (updateFirework [defA] fwShow 99 "nope" {} = fwShow ∧
     duplicateFirework fwShow 99 "copy-1" "nope" 1000 = fwShow) ∧
    (updateFirework [defA] fwShow 99 "f1" {}).updatedAt = 99 := by
  constructor
  · exact (missing_id_noop [defA] fwShow 99 "copy-1" "nope" {} 1000).1 (by decide)
  · exact ((missing_id_noop [defA] fwShow 99 "copy-1" "f1" {} 1000).2
      fwOnTimeline (by decide)).1

/-- C3 (code bug): pausing while playing does stop the sources and leave
the transport non-playing, but the captured `currentTime` is
`AudioPlayer.pauseTime` — a field initialized to 0 and never assigned —
because `getCurrentTime()` is evaluated only after `stop()` has cleared
`isPlaying`. With the player anchored at 0 and the hardware clock at 5 s
the playhead reads 5000 ms, yet pausing freezes the transport at 0. -/
theorem handlePause_pauseTime_bug :
    ((initAudioPlayer.play [] 0 0).1.getCurrentTime 5 = 5000) ∧
    (handlePause (initAudioPlayer.play [] 0 0).1
        { stoppedPlayback with isPlaying := true, currentTime := 4900 } 5).2
      = stoppedPlayback ∧
    (handlePause (initAudioPlayer.play [] 0 0).1
        { stoppedPlayback with isPlaying := true, currentTime := 4900 } 5).1.sources
      = [] ∧
    ((5000 : ℚ) ≠ 0) := by
  refine ⟨?_, ?_, rfl, by norm_num⟩
  · show ((5 : ℚ) - (0 - 0 / 1000)) * 1000 = 5000
    norm_num
  · show ({ stoppedPlayback with isPlaying := false, currentTime := (0:ℚ) }
        : PlaybackState) = stoppedPlayback
    rfl

/-- C2: `AudioPlayer.play` issues exactly one `scheduleOne` decision per
handed clip, and for any clip with playable span `duration − trimStart −
trimEnd ≥ 0` (the §3 invariant) whose timeline placement starts at
`startTimeMs`: if `currentTimeMs` lies in the effective window the source
starts immediately (`when = 0`) at internal offset `trimStart +
(currentTime − startTime)` for the remaining span; if the window starts in
the future it starts at hardware time `ctxNow + (startTime − currentTime)`
at internal offset `trimStart` for the full span; if the window has fully
elapsed no start is issued. All source-command times are the millisecond
quantities divided by 1000 (the audio clock runs in seconds);
`durationMs / 1000` is the decoded buffer duration. -/
theorem scheduleOne_window_spec (ctxNow currentTimeMs startTimeMs trimStartMs
    trimEndMs durationMs : ℚ)
    (hspan : 0 ≤ durationMs - trimStartMs - trimEndMs) :
    (∀ (p : AudioPlayerState) (clips : List SchedClip) (ct cn : ℚ),
      (p.play clips ct cn).2 = clips.map (fun c =>
        (c.id, scheduleOne cn ct c.startTimeMs c.trimStartMs c.trimEndMs
          (c.buffer.getD 0)))) ∧
    (startTimeMs ≤ currentTimeMs ∧
        currentTimeMs < startTimeMs + (durationMs - trimStartMs - trimEndMs) →
      scheduleOne ctxNow currentTimeMs startTimeMs trimStartMs trimEndMs
          (durationMs / 1000)
        = some { whenAt := 0
                 offset := (trimStartMs + (currentTimeMs - startTimeMs)) / 1000
                 length := ((durationMs - trimStartMs - trimEndMs)
                   - (currentTimeMs - startTimeMs)) / 1000 }) ∧
    (currentTimeMs < startTimeMs →
      scheduleOne ctxNow currentTimeMs startTimeMs trimStartMs trimEndMs
          (durationMs / 1000)
        = some { whenAt := ctxNow + (startTimeMs - currentTimeMs) / 1000
                 offset := trimStartMs / 1000
                 length := (durationMs - trimStartMs - trimEndMs) / 1000 }) ∧
    (startTimeMs + (durationMs - trimStartMs - trimEndMs) ≤ currentTimeMs →
      scheduleOne ctxNow currentTimeMs startTimeMs trimStartMs trimEndMs
          (durationMs / 1000)
        = none) := by
  refine ⟨fun p clips ct cn => rfl, ?_, ?_, ?_⟩
  · rintro ⟨h1, h2⟩
    have hge : (0:ℚ) ≤ currentTimeMs / 1000 - startTimeMs / 1000 := by linarith
    have hlt : currentTimeMs / 1000 - startTimeMs / 1000
        < durationMs / 1000 - trimStartMs / 1000 - trimEndMs / 1000 := by linarith
    simp only [scheduleOne]
    rw [if_pos ⟨hge, hlt⟩]
    simp only [Option.some.injEq, StartCmd.mk.injEq]
    refine ⟨trivial, by ring, by ring⟩
  · intro h1
    have hneg : currentTimeMs / 1000 - startTimeMs / 1000 < 0 := by linarith
    have hnot : ¬ ((0:ℚ) ≤ currentTimeMs / 1000 - startTimeMs / 1000 ∧
        currentTimeMs / 1000 - startTimeMs / 1000
          < durationMs / 1000 - trimStartMs / 1000 - trimEndMs / 1000) := by
      rintro ⟨hc, -⟩
      linarith
    simp only [scheduleOne]
    rw [if_neg hnot, if_pos hneg]
    simp only [Option.some.injEq, StartCmd.mk.injEq]
    refine ⟨by ring, trivial, by ring⟩
  · intro h1
    have hnot : ¬ ((0:ℚ) ≤ currentTimeMs / 1000 - startTimeMs / 1000 ∧
        currentTimeMs / 1000 - startTimeMs / 1000
          < durationMs / 1000 - trimStartMs / 1000 - trimEndMs / 1000) := by
      rintro ⟨-, hc⟩
      linarith
    have hnneg : ¬ (currentTimeMs / 1000 - startTimeMs / 1000 < 0) := by
      push_neg
      linarith
    simp only [scheduleOne]
    rw [if_neg hnot, if_neg hnneg]

/-- Witness for C2 at the §8 example: clip `{startTime 2000, duration
10000, trimStart 1000, trimEnd 500}` with the transport at 5000 ms is
started immediately at internal offset 4000 ms (4 s) for the remaining
span 5500 ms (5.5 s). -/
theorem scheduleOne_window_spec_witness :
    scheduleOne 0 5000 2000 1000 500 (10000 / 1000)
      = some { whenAt := 0, offset := 4000 / 1000, length := 5500 / 1000 } := by
  have h := (scheduleOne_window_spec 0 5000 2000 1000 500 10000 (by norm_num)).2.1
    ⟨by norm_num, by norm_num⟩
  rw [h]
  norm_num

/-- A soloed, unmuted audio track. -/
def soloTrack : Track :=
  { id := "a", name := "Audio A", type := TrackType.audio, color := "#4A90D9"
    muted := false, solo := true, height := 80 }

/-- An unmuted audio track that is not soloed. -/
def plainTrack : Track :=
  { id := "b", name := "Audio B", type := TrackType.audio, color := "#4A90D9"
    muted := false, solo := false, height := 80 }

/-- A clip sitting on the non-solo track "b". -/
def clipOnB : AudioClip :=
  { id := "c1", name := "song", fileName := "song.mp3", startTime := 0
    duration := 1000, trimStart := 0, trimEnd := 0, volume := 1, trackId := "b" }

/-- A show where track "a" is soloed while the only clip lives on the
non-solo track "b". -/
def soloShow : FireworkShow :=
  { sampleShow with tracks := [soloTrack, plainTrack], audioClips := [clipOnB] }

/-- Helper for C5: the buffer-presence filter applied after building the
scheduler records fuses with the track filter into one clip-level filter. -/
theorem eligibleClips_filter_eq (sh : FireworkShow) (bufs : List (String × ℚ)) :
    eligibleClips sh bufs
      = (sh.audioClips.filter (fun c =>
          (match sh.tracks.find? (fun t => t.id = c.trackId) with
           | some track => !track.muted
           | none => false)
          && (bufs.find? (fun b => b.1 = c.id)).isSome)).map (schedClipOf bufs) := by
  unfold eligibleClips
  induction sh.audioClips with
  | nil => rfl
  | cons c l ih =>
    by_cases hT : (match sh.tracks.find? (fun t => t.id = c.trackId) with
        | some track => !track.muted
        | none => false) = true
    · by_cases hB : ((bufs.find? (fun b => b.1 = c.id)).isSome) = true
      · have hB' : (schedClipOf bufs c).buffer.isSome = true := by
          unfold schedClipOf
          simpa using hB
        simp [List.filter_cons, hT, hB, hB', ih]
      · have hB' : (schedClipOf bufs c).buffer.isSome = false := by
          unfold schedClipOf
          simpa using eq_false_of_ne_true hB
        simp [List.filter_cons, hT, hB, hB', ih]
    · simp [List.filter_cons, hT, ih]

/-- Helper for C5: the track filter only reads a track's `id` and `muted`
fields, so rewriting every track's `solo` flag changes nothing. -/
theorem trackFilter_solo_irrelevant (soloOf : Track → Bool) (tl : List Track)
    (cid : String) :
    (match (tl.map (fun t => { t with solo := soloOf t })).find?
        (fun t => t.id = cid) with
     | some track => !track.muted
     | none => false)
    = (match tl.find? (fun t => t.id = cid) with
       | some track => !track.muted
       | none => false) := by
  induction tl with
  | nil => rfl
  | cons t ts ih =>
    by_cases h : t.id = cid
    · simp [List.find?, h]
    · simp only [List.map_cons, List.find?]
      rw [show (decide (({ t with solo := soloOf t } : Track).id = cid)) = false by
            simpa using h]
      exact ih

/-- C5 counterexample: in `soloShow` a track is soloed and the only clip
sits on a track that is not soloed (and not muted); `handlePlay` still
hands that clip to the scheduler, so solo does not restrict eligibility. -/
theorem handlePlay_solo_cex :
    soloShow.tracks.any (fun t => t.solo) = true ∧
    (∀ t ∈ soloShow.tracks, t.id = clipOnB.trackId → t.solo = false) ∧
    (handlePlay soloShow [("c1", 1)] stoppedPlayback).2
      = [PlayerCmd.playAt [schedClipOf [("c1", 1)] clipOnB] 0] := by
  refine ⟨by decide, by decide, rfl⟩

/-- C5 amended: when playback starts, the clips handed to the scheduler
are exactly the clips whose track exists and is unmuted and whose decoded
buffer is present; the solo flags have no effect on eligibility. -/
theorem handlePlay_unmuted_eligibility (sh : FireworkShow)
    (bufs : List (String × ℚ)) (pb : PlaybackState) (soloOf : Track → Bool) :
    (handlePlay sh bufs pb).2
      = [PlayerCmd.playAt (eligibleClips sh bufs) pb.currentTime] ∧
    (handlePlay sh bufs pb).1.isPlaying = true ∧
    eligibleClips sh bufs
      = (sh.audioClips.filter (fun c =>
          (match sh.tracks.find? (fun t => t.id = c.trackId) with
           | some track => !track.muted
           | none => false)
          && (bufs.find? (fun b => b.1 = c.id)).isSome)).map (schedClipOf bufs) ∧
    eligibleClips
        { sh with tracks := sh.tracks.map (fun t => { t with solo := soloOf t }) }
        bufs
      = eligibleClips sh bufs := by
  refine ⟨rfl, rfl, eligibleClips_filter_eq sh bufs, ?_⟩
  rw [eligibleClips_filter_eq sh bufs,
      eligibleClips_filter_eq
        { sh with tracks := sh.tracks.map (fun t => { t with solo := soloOf t }) }
        bufs]
  show ((sh.audioClips.filter _).map _) = ((sh.audioClips.filter _).map _)
  congr 1
  apply List.filter_congr
  intro c _
  rw [trackFilter_solo_irrelevant soloOf sh.tracks c.trackId]

/-- A playing transport with looping on and a loop start at 5000 ms. -/
def loopingPlayback : PlaybackState :=
  { isPlaying := true, currentTime := 299000, loopStart := some 5000
    loopEnd := none, isLooping := true }

/-- A playing transport with looping off and no loop start. -/
def playingPlayback : PlaybackState :=
  { isPlaying := true, currentTime := 299000, loopStart := none
    loopEnd := none, isLooping := false }

/-- C6: on the scheduling tick where the advancing playhead `hw` has
reached or passed `show.duration`: with `isLooping` and a set `loopStart`,
the tick performs the internal seek — player stop, then re-scheduling of
the eligible clips at `loopStart` — and the transport remains Playing;
otherwise the tick performs `handleStop`, transitioning to Stopped with
`currentTime = 0`, so in the non-looping branch `currentTime` is not
advanced past `duration` on that tick. -/
theorem playbackTick_end_of_range (sh : FireworkShow) (bufs : List (String × ℚ))
    (pb : PlaybackState) (hw : ℚ) (hplay : pb.isPlaying = true)
    (hhw : sh.duration ≤ hw) (hdur : 0 ≤ sh.duration) :
    (∀ ls, pb.isLooping = true → pb.loopStart = some ls →
      playbackTick sh bufs pb hw
        = ({ pb with currentTime := hw },
           [PlayerCmd.stop, PlayerCmd.playAt (eligibleClips sh bufs) ls]) ∧
      (playbackTick sh bufs pb hw).1.isPlaying = true) ∧
    (pb.isLooping = false ∨ pb.loopStart = none →
      playbackTick sh bufs pb hw
        = ({ pb with isPlaying := false, currentTime := 0 }, [PlayerCmd.stop]) ∧
      (playbackTick sh bufs pb hw).1.currentTime ≤ sh.duration) := by
  have hge : hw ≥ sh.duration := hhw
  obtain ⟨pi, pct, pls, ple, pil⟩ := pb
  replace hplay : pi = true := hplay
  subst hplay
  constructor
  · intro ls hl hls
    replace hl : pil = true := hl
    replace hls : pls = some ls := hls
    subst hl
    subst hls
    have he : playbackTick sh bufs ⟨true, pct, some ls, ple, true⟩ hw
        = (⟨true, hw, some ls, ple, true⟩,
           [PlayerCmd.stop, PlayerCmd.playAt (eligibleClips sh bufs) ls]) := by
      unfold playbackTick
      rw [if_pos hge]
      rfl
    refine ⟨he, ?_⟩
    rw [he]
  · intro h
    have he : playbackTick sh bufs ⟨true, pct, pls, ple, pil⟩ hw
        = (⟨false, 0, pls, ple, pil⟩, [PlayerCmd.stop]) := by
      unfold playbackTick
      rw [if_pos hge]
      rcases h with h | h
      · replace h : pil = false := h
        subst h
        cases pls <;> rfl
      · replace h : pls = none := h
        subst h
        cases pil <;> rfl
    refine ⟨he, ?_⟩
    rw [he]
    exact hdur

/-- Witness for C6 on the 300000 ms `sampleShow` with the playhead at
300000: the looping transport seeks back to 5000 and stays playing; the
non-looping transport stops at 0. -/
theorem playbackTick_end_of_range_witness :
    playbackTick sampleShow [] loopingPlayback 300000
      = ({ loopingPlayback with currentTime := 300000 },
         [PlayerCmd.stop, PlayerCmd.playAt [] 5000]) ∧
    playbackTick sampleShow [] playingPlayback 300000
      = ({ playingPlayback with isPlaying := false, currentTime := 0 },
         [PlayerCmd.stop]) := by
  constructor
  · exact ((playbackTick_end_of_range sampleShow [] loopingPlayback 300000 rfl
      (by norm_num [sampleShow]) (by norm_num [sampleShow])).1 5000 rfl rfl).1
  · exact ((playbackTick_end_of_range sampleShow [] playingPlayback 300000 rfl
      (by norm_num [sampleShow]) (by norm_num [sampleShow])).2 (Or.inl rfl)).1

/-- Helper for C8: every band selects a positive minor interval. -/
theorem chooseIntervals_minor_pos (pps : ℚ) : 0 < (chooseIntervals pps).1 := by
  unfold chooseIntervals
  split_ifs <;> norm_num

/-- Helper for C8: the aligned floor is a multiple of the minor interval. -/
theorem alignedStart_dvd (startMs m : ℤ) : m ∣ alignedStart startMs m :=
  ⟨startMs / m, mul_comm _ _⟩

/-- Helper for C8: membership in the unrolled tick loop, for a positive
step `m` and a start `s` that is a multiple of `m`. -/
theorem mem_tickList (m M s e : ℤ) (hm : 0 < m) (hs : m ∣ s) (hse : s ≤ e)
    (tk : RulerTick) :
    tk ∈ (List.range (((e - s) / m).toNat + 1)).map
        (fun (i : ℕ) => ({ time := s + (i : ℤ) * m
                           isMajor := (s + (i : ℤ) * m) % M == 0 } : RulerTick))
      ↔ (m ∣ tk.time ∧ s ≤ tk.time ∧ tk.time ≤ e ∧
         (tk.isMajor = true ↔ M ∣ tk.time)) := by
  obtain ⟨t, b⟩ := tk
  dsimp only
  have hq0 : 0 ≤ (e - s) / m := Int.ediv_nonneg (by omega) hm.le
  have hqm : (e - s) / m * m ≤ e - s := Int.ediv_mul_le (e - s) (ne_of_gt hm)
  constructor
  · intro hmem
    rcases List.mem_map.mp hmem with ⟨i, hi, hitk⟩
    have hi' : i ≤ ((e - s) / m).toNat := Nat.lt_succ_iff.mp (List.mem_range.mp hi)
    have hiz : (i : ℤ) ≤ (e - s) / m := by
      calc (i : ℤ) ≤ (((e - s) / m).toNat : ℤ) := by exact_mod_cast hi'
        _ = (e - s) / m := Int.toNat_of_nonneg hq0
    have him : (i : ℤ) * m ≤ e - s :=
      le_trans (mul_le_mul_of_nonneg_right hiz hm.le) hqm
    have hio : (0:ℤ) ≤ (i : ℤ) * m := mul_nonneg (Int.natCast_nonneg i) hm.le
    rw [RulerTick.mk.injEq] at hitk
    obtain ⟨ht, hb⟩ := hitk
    subst ht
    subst hb
    refine ⟨dvd_add hs (dvd_mul_left m _), by linarith, by linarith, ?_⟩
    rw [beq_iff_eq]
    exact (Int.dvd_iff_emod_eq_zero).symm
  · rintro ⟨hdvd, hget, hlet, hmaj⟩
    obtain ⟨k, hk⟩ : m ∣ (t - s) := dvd_sub hdvd hs
    have hmk : 0 ≤ m * k := by rw [← hk]; linarith
    have hk0 : 0 ≤ k := by nlinarith [hmk, hm]
    have hk' : k * m = t - s := by rw [mul_comm]; exact hk.symm
    have hkle : k ≤ (e - s) / m := by
      rw [Int.le_ediv_iff_mul_le hm]
      linarith
    refine List.mem_map.mpr ⟨k.toNat, List.mem_range.mpr ?_, ?_⟩
    · exact Nat.lt_succ_of_le (Int.toNat_le_toNat hkle)
    · have hkz : ((k.toNat : ℤ)) = k := Int.toNat_of_nonneg hk0
      have htime : s + (k.toNat : ℤ) * m = t := by
        rw [hkz]
        linarith
      rw [RulerTick.mk.injEq]
      refine ⟨htime, ?_⟩
      rw [htime]
      cases b with
      | false =>
        have hnd : ¬ M ∣ t := fun hd => by simpa using hmaj.mpr hd
        simp only [beq_eq_false_iff_ne, ne_eq]
        intro h0
        exact hnd (Int.dvd_of_emod_eq_zero h0)
      | true =>
        have hd : M ∣ t := hmaj.mp rfl
        simp [beq_iff_eq, Int.emod_eq_zero_of_dvd hd]

/-- C8: `generateRulerTicks` selects the (minor, major) interval pair by
the fixed `pixelsPerSecond` bands — below 20 ⇒ (10 s, 60 s); 20–49 ⇒
(5 s, 30 s); 50–99 ⇒ (1 s, 10 s); 100–200 ⇒ (1 s, 5 s); above 200 ⇒
(0.5 s, 5 s) — and the returned list holds exactly the minor-interval
multiples from the minor-aligned floor of the range start through the
range end inclusive, a tick being major exactly when its time is a
multiple of the major interval. -/
theorem generateRulerTicks_spec (pps : ℚ) (startMs endMs : ℤ) :
    (pps < 20 → chooseIntervals pps = (10000, 60000)) ∧
    (20 ≤ pps ∧ pps ≤ 49 → chooseIntervals pps = (5000, 30000)) ∧
    (50 ≤ pps ∧ pps ≤ 99 → chooseIntervals pps = (1000, 10000)) ∧
    (100 ≤ pps ∧ pps ≤ 200 → chooseIntervals pps = (1000, 5000)) ∧
    (200 < pps → chooseIntervals pps = (500, 5000)) ∧
    (∀ tk : RulerTick, tk ∈ generateRulerTicks startMs endMs pps ↔
      ((chooseIntervals pps).1 ∣ tk.time ∧
       alignedStart startMs (chooseIntervals pps).1 ≤ tk.time ∧
       tk.time ≤ endMs ∧
       (tk.isMajor = true ↔ (chooseIntervals pps).2 ∣ tk.time))) := by
  refine ⟨?_, ?_, ?_, ?_, ?_, ?_⟩
  · intro h
    unfold chooseIntervals
    split_ifs <;> first | rfl | linarith
  · rintro ⟨h1, h2⟩
    unfold chooseIntervals
    split_ifs <;> first | rfl | linarith
  · rintro ⟨h1, h2⟩
    unfold chooseIntervals
    split_ifs <;> first | rfl | linarith
  · rintro ⟨h1, h2⟩
    unfold chooseIntervals
    split_ifs <;> first | rfl | linarith
  · intro h
    unfold chooseIntervals
    split_ifs <;> first | rfl | linarith
  · intro tk
    have hmp := chooseIntervals_minor_pos pps
    by_cases hse : alignedStart startMs (chooseIntervals pps).1 ≤ endMs
    · simp only [generateRulerTicks]
      rw [if_pos hse]
      exact mem_tickList _ _ _ _ hmp (alignedStart_dvd _ _) hse tk
    · simp only [generateRulerTicks]
      rw [if_neg hse]
      simp only [List.not_mem_nil, false_iff]
      rintro ⟨-, ha, hb, -⟩
      exact hse (le_trans ha hb)

/-- Witness for C8: at `pps = 120` the selected pair is (1000 ms,
5000 ms), and over the range [-1500, 10000] the major tick at 5000 ms is
generated. -/
theorem generateRulerTicks_spec_witness :
    chooseIntervals 120 = (1000, 5000) ∧
    ({ time := 5000, isMajor := true } : RulerTick)
      ∈ generateRulerTicks (-1500) 10000 120 := by
  have h := generateRulerTicks_spec 120 (-1500) 10000
  have hc : chooseIntervals 120 = (1000, 5000) :=
    h.2.2.2.1 ⟨by norm_num, by norm_num⟩
  refine ⟨hc, (h.2.2.2.2.2 ⟨5000, true⟩).mpr ?_⟩
  rw [hc]
  exact ⟨by decide, by decide, by decide, ⟨fun _ => by decide, fun _ => rfl⟩⟩

/-- A partial update that moves `visualTime` and, in the same call,
retargets the instance to `defB`. -/
def retargetUpdate : FireworkUpdate :=
  { visualTime := some 10000, fireworkId := some "d2" }

/-- C1 counterexample: starting from a state satisfying the derived-field
invariant, the update `{visualTime: 10000, fireworkId: "d2"}` — whose
changed fields include `visualTime` — leaves an instance whose referenced
definition `d2` resolves (preFiringOffset 500) but whose `fireTime` is
7000, computed from the pre-update definition `d1` (preFiringOffset 3000)
instead of `10000 − 500 = 9500`. -/
theorem updateFirework_retarget_cex :
    fireInvariant [defA, defB] fwShow.customFireworks fwOnTimeline ∧
    (updateFirework [defA, defB] fwShow 1 "f1" retargetUpdate).fireworks
      = [{ fwOnTimeline with
            fireworkId := "d2",
            visualTime := 10000,
            fireTime := 7000 }] ∧
    findDefinition [defA, defB]
        (updateFirework [defA, defB] fwShow 1 "f1" retargetUpdate).customFireworks
        "d2"
      = some defB ∧
    (7000 : ℤ) ≠ 10000 - defB.preFiringOffset := by
  refine ⟨?_, by decide, by decide, by decide⟩
  exact (by decide : (2000 : ℤ) = 5000 - 3000)

/-- C1 amended: (add) when the definition resolves, `addFirework` appends
exactly the fresh instance with `fireTime = visualTime − preFiringOffset`,
which therefore satisfies the derived-field invariant, pre-existing
instances untouched; (update) when the changed fields include `visualTime`
and do not replace the definition reference, the matching instance (unique
by id) becomes the merged instance whose `fireTime` is unconditionally
recomputed from the instance's (pre-update) definition — any `fireTime`
among the updates is overridden — so it satisfies the invariant, and every
other updated field passes through unchanged; all other instances are
untouched. (The counterexample shows the original claim fails when the
update also replaces `fireworkId`.) -/
theorem fireTime_recompute_amended (lib : List FireworkDefinition)
    (sh : FireworkShow) (now : ℤ) (newId defId trackId fid : String) (vt : ℤ)
    (u : FireworkUpdate) (f : TimelineFirework) :
    (∀ d, findDefinition lib sh.customFireworks defId = some d →
      (addFirework lib sh now newId defId trackId vt).1.fireworks
        = sh.fireworks ++
          [{ id := newId, fireworkId := defId, visualTime := vt
             fireTime := vt - d.preFiringOffset
             position := { x := 0, angle := 90 }, trackId := trackId
             cueNumber := none, notes := none }] ∧
      fireInvariant lib sh.customFireworks
        { id := newId, fireworkId := defId, visualTime := vt
          fireTime := vt - d.preFiringOffset
          position := { x := 0, angle := 90 }, trackId := trackId
          cueNumber := none, notes := none }) ∧
    (sh.fireworks.find? (fun g => g.id = fid) = some f →
     (∀ g ∈ sh.fireworks, g.id = fid → g = f) →
     u.visualTime = some vt → u.fireworkId = none →
     ∃ upd : TimelineFirework,
       (updateFirework lib sh now fid u).fireworks
         = sh.fireworks.map (fun g => if g.id = fid then upd else g) ∧
       fireInvariant lib sh.customFireworks upd ∧
       upd.visualTime = vt ∧
       upd.fireworkId = f.fireworkId ∧
       upd.id = u.id.getD f.id ∧
       upd.position = u.position.getD f.position ∧
       upd.trackId = u.trackId.getD f.trackId ∧
       upd.cueNumber
         = (match u.cueNumber with | some s => some s | none => f.cueNumber) ∧
       upd.notes
         = (match u.notes with | some s => some s | none => f.notes)) := by
  constructor
  · intro d hd
    constructor
    · unfold addFirework
      rw [hd]
    · unfold fireInvariant
      dsimp only
      rw [hd]
  · intro hfind huniq hvt hfid
    obtain ⟨uid, ufid, uvt, uft, upos, utr, ucue, unotes⟩ := u
    replace hvt : uvt = some vt := hvt
    replace hfid : ufid = none := hfid
    subst hvt
    subst hfid
    set nu : FireworkUpdate :=
      (match findDefinition lib sh.customFireworks f.fireworkId with
       | some d =>
         { id := uid, fireworkId := none, visualTime := some vt
           fireTime := some (vt - d.preFiringOffset)
           position := upos, trackId := utr, cueNumber := ucue, notes := unotes }
       | none =>
         { id := uid, fireworkId := none, visualTime := some vt
           fireTime := uft
           position := upos, trackId := utr, cueNumber := ucue
           notes := unotes }) with hnu
    have hu' : (updateFirework lib sh now fid
          ⟨uid, none, some vt, uft, upos, utr, ucue, unotes⟩).fireworks
        = sh.fireworks.map (fun g => if g.id = fid then applyUpdate g nu else g) := by
      unfold updateFirework
      rw [hfind]
    have hmap : sh.fireworks.map (fun g => if g.id = fid then applyUpdate g nu else g)
        = sh.fireworks.map (fun g => if g.id = fid then applyUpdate f nu else g) := by
      apply List.map_congr_left
      intro g hg
      by_cases hgid : g.id = fid
      · rw [huniq g hg hgid]
      · simp [hgid]
    refine ⟨applyUpdate f nu, by rw [hu', hmap], ?_, ?_, ?_, ?_, ?_, ?_, ?_, ?_⟩
    · unfold fireInvariant
      have hafid : (applyUpdate f nu).fireworkId = f.fireworkId := by
        unfold applyUpdate
        rw [hnu]
        rcases hdd : findDefinition lib sh.customFireworks f.fireworkId with _ | d <;>
          rfl
      rw [hafid]
      rcases hdd : findDefinition lib sh.customFireworks f.fireworkId with _ | d
      · trivial
      · unfold applyUpdate
        rw [hnu, hdd]
        rfl
    · unfold applyUpdate
      rw [hnu]
      rcases hdd : findDefinition lib sh.customFireworks f.fireworkId with _ | d <;> rfl
    · unfold applyUpdate
      rw [hnu]
      rcases hdd : findDefinition lib sh.customFireworks f.fireworkId with _ | d <;> rfl
    · unfold applyUpdate
      rw [hnu]
      rcases hdd : findDefinition lib sh.customFireworks f.fireworkId with _ | d <;> rfl
    · unfold applyUpdate
      rw [hnu]
      rcases hdd : findDefinition lib sh.customFireworks f.fireworkId with _ | d <;> rfl
    · unfold applyUpdate
      rw [hnu]
      rcases hdd : findDefinition lib sh.customFireworks f.fireworkId with _ | d <;> rfl
    · unfold applyUpdate
      rw [hnu]
      rcases hdd : findDefinition lib sh.customFireworks f.fireworkId with _ | d <;> rfl
    · unfold applyUpdate
      rw [hnu]
      rcases hdd : findDefinition lib sh.customFireworks f.fireworkId with _ | d <;> rfl

/-- Witness for C1 (amended) on the §8 example: adding `defA`
(preFiringOffset 3000, the spec example definition) at visual time 10000
inserts an instance with `fireTime = 7000`; updating `f1` with
`{visualTime: 10000, fireTime: 4242}` recomputes `fireTime` to 7000,
overriding the supplied 4242. -/
theorem fireTime_recompute_amended_witness :
    (addFirework [defA] fwShow 7 "f2" "d1" "firework-1" 10000).1.fireworks
      = [fwOnTimeline,
         { id := "f2", fireworkId := "d1", visualTime := 10000, fireTime := 7000
           position := { x := 0, angle := 90 }, trackId := "firework-1"
           cueNumber := none, notes := none }] ∧
    (updateFirework [defA] fwShow 7 "f1"
        { visualTime := some 10000, fireTime := some 4242 }).fireworks
      = [{ fwOnTimeline with visualTime := 10000, fireTime := 7000 }] := by
  have h := fireTime_recompute_amended [defA] fwShow 7 "f2" "d1" "firework-1" "f1"
    10000 { visualTime := some 10000, fireTime := some 4242 } fwOnTimeline
  constructor
  · exact (h.1 defA (by decide)).1
  · obtain ⟨upd, hmap2, hinv, hvt2, hfid2, hid2, hpos2, htr2, hcue2, hnotes2⟩ :=
      h.2 (by decide) (by decide) rfl rfl
    have hfid2' : upd.fireworkId = "d1" := hfid2
    have hft : upd.fireTime = upd.visualTime - defA.preFiringOffset := by
      have h' := hinv
      unfold fireInvariant at h'
      rw [hfid2'] at h'
      exact h'
    obtain ⟨w1, w2, w3, w4, w5, w6, w7, w8⟩ := upd
    replace hvt2 : w3 = 10000 := hvt2
    replace hfid2 : w2 = "d1" := hfid2'
    replace hid2 : w1 = "f1" := hid2
    replace hpos2 : w5 = { x := 0, angle := 90 } := hpos2
    replace htr2 : w6 = "firework-1" := htr2
    replace hcue2 : w7 = none := hcue2
    replace hnotes2 : w8 = none := hnotes2
    subst hvt2
    subst hfid2
    subst hid2
    subst hpos2
    subst htr2
    subst hcue2
    subst hnotes2
    replace hft : w4 = 7000 := hft
    subst hft
    rw [hmap2]
    decide
